import Mathlib

/-!
Verification of the cihai application glue layer.

The development shallowly embeds the code of src/cihai (core.py, cli.py)
into Lean: nested configuration dictionaries become a mutual inductive of
values and entry lists, the configuration merge performed by
Cihai.__init__ becomes a structurally recursive function, the CLI control
flow becomes an explicit event trace, and the dynamic-attribute dataset
registry becomes explicit state passing over an association list.
-/

set_option autoImplicit false

namespace Cihai

mutual
/-- A nested configuration value: either a scalar (string) or a mapping
from string keys to nested values, with insertion order retained as in
Python dictionaries. -/
inductive ConfigVal : Type where
  | leaf : String → ConfigVal
  | dict : Entries → ConfigVal
/-- Ordered entry list of a configuration mapping. -/
inductive Entries : Type where
  | nil : Entries
  | cons : String → ConfigVal → Entries → Entries
end

/-- First value stored under a key, as Python dict lookup. -/
def lookupKey : Entries → String → Option ConfigVal
  | Entries.nil, _ => none
  | Entries.cons k v rest, key => if k = key then some v else lookupKey rest key

/-- Python dict assignment: replace the value in place if the key exists,
otherwise append the new pair at the end. -/
def setKey : Entries → String → ConfigVal → Entries
  | Entries.nil, key, v => Entries.cons key v Entries.nil
  | Entries.cons k w rest, key, v =>
      if k = key then Entries.cons k v rest else Entries.cons k w (setKey rest key v)

mutual
/-- Modelled from the spec: cihai.utils.merge_dict (not under src/), the
configuration loader that merges nested mapping defaults with
user-supplied overrides, overrides taking precedence.  Two mappings merge
recursively per key; in every other combination the override value
replaces the base value wholesale.  The base is an Option so that a key
missing from the base simply takes the override value. -/
def mergeVal : Option ConfigVal → ConfigVal → ConfigVal
  | some (ConfigVal.dict bs), ConfigVal.dict os => ConfigVal.dict (mergeEntries bs os)
  | _, o => o
def mergeEntries : Entries → Entries → Entries
  | bs, Entries.nil => bs
  | bs, Entries.cons k v rest => mergeEntries (setKey bs k (mergeVal (lookupKey bs k) v)) rest
end

/-- Lookup of a key path (sequence of nested keys) in a value. -/
def lookupPath : ConfigVal → List String → Option ConfigVal
  | v, [] => some v
  | ConfigVal.leaf _, _ :: _ => none
  | ConfigVal.dict es, k :: rest =>
      match lookupKey es k with
      | some v => lookupPath v rest
      | none => none

/-- Whether a key occurs in an entry list. -/
def containsKey (es : Entries) (k : String) : Bool :=
  (lookupKey es k).isSome

mutual
/-- Well-formedness inherited from Python dictionaries: at every nesting
level the keys are pairwise distinct. -/
def nodupKeys : ConfigVal → Bool
  | ConfigVal.leaf _ => true
  | ConfigVal.dict es => nodupEntries es
def nodupEntries : Entries → Bool
  | Entries.nil => true
  | Entries.cons k v rest => !containsKey rest k && nodupKeys v && nodupEntries rest
end

/-- Well-formedness of an optional base value. -/
def nodupO : Option ConfigVal → Bool
  | none => true
  | some v => nodupKeys v

/-- A key path is unshadowed in a value when no proper prefix of the path
hits a scalar: along the path the value holds mappings (or nothing). -/
def unshadowed : ConfigVal → List String → Bool
  | _, [] => true
  | ConfigVal.leaf _, _ :: _ => false
  | ConfigVal.dict es, k :: rest =>
      match lookupKey es k with
      | some v => unshadowed v rest
      | none => true

/-- The configuration computed by Cihai.__init__ before template
expansion (core.py lines 77-85): user config merged over the defaults,
and, when unihan is requested, the result merged over the UNIHAN
config. -/
def cihaiInitConfig (defaults unihanCfg : ConfigVal) (config : ConfigVal) (unihan : Bool) :
    ConfigVal :=
  let c1 := mergeVal (some defaults) config
  if unihan then mergeVal (some unihanCfg) c1 else c1

/-- The combined default layer the spec describes: the defaults, with the
UNIHAN config merged in underneath when unihan is requested. -/
def mergedDefaults (defaults unihanCfg : ConfigVal) (unihan : Bool) : ConfigVal :=
  if unihan then mergeVal (some unihanCfg) defaults else defaults

theorem lookupKey_setKey_self : ∀ (es : Entries) (k : String) (v : ConfigVal),
    lookupKey (setKey es k v) k = some v
  | Entries.nil, k, v => by simp [setKey, lookupKey]
  | Entries.cons a w rest, k, v => by
      by_cases h : a = k
      · simp [setKey, h, lookupKey]
      · simp [setKey, h, lookupKey, lookupKey_setKey_self rest k v]

theorem lookupKey_setKey_other : ∀ (es : Entries) (k' k : String) (v : ConfigVal),
    k' ≠ k → lookupKey (setKey es k' v) k = lookupKey es k
  | Entries.nil, k', k, v, h => by simp [setKey, lookupKey, h]
  | Entries.cons a w rest, k', k, v, h => by
      by_cases ha : a = k'
      · subst ha
        simp [setKey, lookupKey, h]
      · simp only [setKey, if_neg ha]
        by_cases hak : a = k
        · simp [lookupKey, hak]
        · simp [lookupKey, hak, lookupKey_setKey_other rest k' k v h]

theorem lookupKey_eq_none_of_not_contains (es : Entries) (k : String)
    (h : containsKey es k = false) : lookupKey es k = none := by
  cases hlk : lookupKey es k with
  | none => rfl
  | some v => simp [containsKey, hlk] at h

theorem nodupEntries_cons_iff (k : String) (v : ConfigVal) (rest : Entries) :
    nodupEntries (Entries.cons k v rest) = true ↔
      containsKey rest k = false ∧ nodupKeys v = true ∧ nodupEntries rest = true := by
  simp [nodupEntries, Bool.and_eq_true, Bool.not_eq_true', and_assoc]

theorem nodupKeys_of_lookupKey : ∀ (es : Entries) (k : String) (v : ConfigVal),
    nodupEntries es = true → lookupKey es k = some v → nodupKeys v = true
  | Entries.nil, _, _, _, h => by simp [lookupKey] at h
  | Entries.cons a w rest, k, v, hnd, h => by
      obtain ⟨_, hw, hrest⟩ := (nodupEntries_cons_iff a w rest).mp hnd
      by_cases ha : a = k
      · rw [lookupKey, if_pos ha] at h
        exact (Option.some.injEq _ _ ▸ h : w = v) ▸ hw
      · rw [lookupKey, if_neg ha] at h
        exact nodupKeys_of_lookupKey rest k v hrest h

theorem nodupEntries_setKey : ∀ (es : Entries) (k : String) (v : ConfigVal),
    nodupEntries es = true → nodupKeys v = true → nodupEntries (setKey es k v) = true
  | Entries.nil, k, v, _, hv => by
      simp [setKey, nodupEntries_cons_iff, containsKey, lookupKey, hv, nodupEntries]
  | Entries.cons a w rest, k, v, hnd, hv => by
      obtain ⟨hca, hw, hrest⟩ := (nodupEntries_cons_iff a w rest).mp hnd
      by_cases ha : a = k
      · rw [setKey, if_pos ha]
        exact (nodupEntries_cons_iff a v rest).mpr ⟨hca, hv, hrest⟩
      · rw [setKey, if_neg ha]
        refine (nodupEntries_cons_iff a w _).mpr ⟨?_, hw, nodupEntries_setKey rest k v hrest hv⟩
        have : lookupKey (setKey rest k v) a = lookupKey rest a :=
          lookupKey_setKey_other rest k a v (fun h => ha h.symm)
        simp [containsKey, this]
        simpa [containsKey] using hca

theorem lookupKey_mergeEntries_none : ∀ (os bs : Entries) (k : String),
    lookupKey os k = none → lookupKey (mergeEntries bs os) k = lookupKey bs k
  | Entries.nil, bs, k, _ => rfl
  | Entries.cons k' v rest, bs, k, h => by
      have hk : k' ≠ k := by
        intro he
        rw [lookupKey, if_pos he] at h
        exact Option.noConfusion h
      rw [lookupKey, if_neg hk] at h
      rw [show mergeEntries bs (Entries.cons k' v rest) =
            mergeEntries (setKey bs k' (mergeVal (lookupKey bs k') v)) rest from rfl]
      rw [lookupKey_mergeEntries_none rest _ k h]
      exact lookupKey_setKey_other bs k' k _ hk

theorem lookupKey_mergeEntries_some : ∀ (os bs : Entries) (k : String) (v : ConfigVal),
    nodupEntries os = true → lookupKey os k = some v →
    lookupKey (mergeEntries bs os) k = some (mergeVal (lookupKey bs k) v)
  | Entries.nil, _, _, _, _, h => by simp [lookupKey] at h
  | Entries.cons k' w rest, bs, k, v, hnd, h => by
      obtain ⟨hck, _, hrest⟩ := (nodupEntries_cons_iff k' w rest).mp hnd
      rw [show mergeEntries bs (Entries.cons k' w rest) =
            mergeEntries (setKey bs k' (mergeVal (lookupKey bs k') w)) rest from rfl]
      by_cases hk : k' = k
      · subst hk
        rw [lookupKey, if_pos rfl] at h
        have hw : w = v := by injection h
        subst hw
        rw [lookupKey_mergeEntries_none rest _ k'
              (lookupKey_eq_none_of_not_contains rest k' hck)]
        exact lookupKey_setKey_self bs k' _
      · rw [lookupKey, if_neg hk] at h
        rw [lookupKey_mergeEntries_some rest _ k v hrest h,
            lookupKey_setKey_other bs k' k _ hk]

theorem mergeVal_none : ∀ (o : ConfigVal), mergeVal none o = o
  | ConfigVal.leaf _ => rfl
  | ConfigVal.dict _ => rfl

theorem mergeVal_leaf_base : ∀ (s : String) (o : ConfigVal),
    mergeVal (some (ConfigVal.leaf s)) o = o
  | _, ConfigVal.leaf _ => rfl
  | _, ConfigVal.dict _ => rfl

mutual
theorem nodupKeys_mergeVal : ∀ (b : Option ConfigVal) (o : ConfigVal),
    nodupO b = true → nodupKeys o = true → nodupKeys (mergeVal b o) = true
  | b, ConfigVal.leaf s, _, ho => by
      cases b with
      | none => exact ho
      | some v => cases v with
        | leaf t => exact ho
        | dict bs => exact ho
  | b, ConfigVal.dict os, hb, ho => by
      cases b with
      | none => exact ho
      | some v => cases v with
        | leaf t => exact ho
        | dict bs => exact nodupEntries_mergeEntries bs os hb ho
theorem nodupEntries_mergeEntries : ∀ (bs os : Entries),
    nodupEntries bs = true → nodupEntries os = true →
    nodupEntries (mergeEntries bs os) = true
  | bs, Entries.nil, hb, _ => hb
  | bs, Entries.cons k v rest, hb, ho => by
      obtain ⟨_, hv, hrest⟩ := (nodupEntries_cons_iff k v rest).mp ho
      have hbk : nodupO (lookupKey bs k) = true := by
        cases hlk : lookupKey bs k with
        | none => rfl
        | some w => exact nodupKeys_of_lookupKey bs k w hb hlk
      have hm : nodupKeys (mergeVal (lookupKey bs k) v) = true :=
        nodupKeys_mergeVal (lookupKey bs k) v hbk hv
      exact nodupEntries_mergeEntries (setKey bs k (mergeVal (lookupKey bs k) v)) rest
        (nodupEntries_setKey bs k _ hb hm) hrest
end

/-- When the override holds a scalar at a key path, so does the merge:
user-supplied scalar values take precedence. -/
theorem lookupPath_mergeVal_leaf (p : List String) :
    ∀ (o : ConfigVal) (b : Option ConfigVal) (s : String),
      nodupKeys o = true → lookupPath o p = some (ConfigVal.leaf s) →
      lookupPath (mergeVal b o) p = some (ConfigVal.leaf s) := by
  induction p with
  | nil =>
      intro o b s _ h
      have ho : o = ConfigVal.leaf s := by simpa [lookupPath] using h
      subst ho
      cases b with
      | none => exact h
      | some v => cases v with
        | leaf t => exact h
        | dict bs => exact h
  | cons k rest ih =>
      intro o b s hnd h
      cases o with
      | leaf t => simp [lookupPath] at h
      | dict os =>
          cases hlk : lookupKey os k with
          | none => rw [lookupPath, hlk] at h; exact Option.noConfusion h
          | some v =>
              rw [lookupPath, hlk] at h
              have hv : nodupKeys v = true := nodupKeys_of_lookupKey os k v hnd hlk
              cases b with
              | none =>
                  rw [mergeVal_none, lookupPath, hlk]
                  exact h
              | some bv => cases bv with
                | leaf t =>
                    rw [mergeVal_leaf_base, lookupPath, hlk]
                    exact h
                | dict bs =>
                    rw [show mergeVal (some (ConfigVal.dict bs)) (ConfigVal.dict os) =
                          ConfigVal.dict (mergeEntries bs os) from rfl]
                    rw [lookupPath, lookupKey_mergeEntries_some os bs k v hnd hlk]
                    exact ih v (lookupKey bs k) s hv h

/-- When a key path misses the override and no proper prefix of the path
is overridden by a scalar, the merge holds the base value there. -/
theorem lookupPath_mergeVal_absent (p : List String) :
    ∀ (o b : ConfigVal),
      nodupKeys o = true → lookupPath o p = none → unshadowed o p = true →
      lookupPath (mergeVal (some b) o) p = lookupPath b p := by
  induction p with
  | nil => intro o b _ h _; simp [lookupPath] at h
  | cons k rest ih =>
      intro o b hnd habs hsh
      cases o with
      | leaf t => simp [unshadowed] at hsh
      | dict os =>
          cases b with
          | leaf t =>
              rw [mergeVal_leaf_base, habs, lookupPath]
          | dict bs =>
              rw [show mergeVal (some (ConfigVal.dict bs)) (ConfigVal.dict os) =
                    ConfigVal.dict (mergeEntries bs os) from rfl]
              cases hlk : lookupKey os k with
              | none =>
                  rw [lookupPath, lookupKey_mergeEntries_none os bs k hlk, lookupPath]
              | some v =>
                  rw [lookupPath, hlk] at habs
                  rw [unshadowed, hlk] at hsh
                  have hv : nodupKeys v = true := nodupKeys_of_lookupKey os k v hnd hlk
                  rw [lookupPath, lookupKey_mergeEntries_some os bs k v hnd hlk, lookupPath]
                  cases hbk : lookupKey bs k with
                  | none => rw [mergeVal_none, habs]
                  | some w => exact ih v w hv habs hsh

/-- Merging the same overlay over two values that agree at a key path
yields values that again agree at that path. -/
theorem lookupPath_mergeVal_congr (p : List String) :
    ∀ (x y : ConfigVal) (u : Option ConfigVal) (v : ConfigVal),
      nodupKeys x = true → nodupKeys y = true →
      lookupPath x p = some v → lookupPath y p = some v →
      lookupPath (mergeVal u x) p = lookupPath (mergeVal u y) p := by
  induction p with
  | nil =>
      intro x y u v _ _ hx hy
      have hx' : x = v := by simpa [lookupPath] using hx
      have hy' : y = v := by simpa [lookupPath] using hy
      rw [hx', hy']
  | cons k rest ih =>
      intro x y u v hnx hny hx hy
      cases x with
      | leaf t => simp [lookupPath] at hx
      | dict xs =>
          cases y with
          | leaf t => simp [lookupPath] at hy
          | dict ys =>
              cases hlx : lookupKey xs k with
              | none => rw [lookupPath, hlx] at hx; exact Option.noConfusion hx
              | some xv =>
                  cases hly : lookupKey ys k with
                  | none => rw [lookupPath, hly] at hy; exact Option.noConfusion hy
                  | some yv =>
                      rw [lookupPath, hlx] at hx
                      rw [lookupPath, hly] at hy
                      cases u with
                      | none =>
                          rw [mergeVal_none, mergeVal_none, lookupPath, hlx,
                              lookupPath, hly, hx, hy]
                      | some uv => cases uv with
                        | leaf t =>
                            rw [mergeVal_leaf_base, mergeVal_leaf_base, lookupPath, hlx,
                                lookupPath, hly, hx, hy]
                        | dict us =>
                            rw [show mergeVal (some (ConfigVal.dict us)) (ConfigVal.dict xs) =
                                  ConfigVal.dict (mergeEntries us xs) from rfl,
                                show mergeVal (some (ConfigVal.dict us)) (ConfigVal.dict ys) =
                                  ConfigVal.dict (mergeEntries us ys) from rfl]
                            rw [lookupPath, lookupKey_mergeEntries_some xs us k xv hnx hlx,
                                lookupPath, lookupKey_mergeEntries_some ys us k yv hny hly]
                            exact ih xv yv (lookupKey us k) v
                              (nodupKeys_of_lookupKey xs k xv hnx hlx)
                              (nodupKeys_of_lookupKey ys k yv hny hly) hx hy

/-- Merging two values that are both unshadowed along a key path yields a
value unshadowed along that path. -/
theorem unshadowed_mergeVal (p : List String) :
    ∀ (c d : ConfigVal), nodupKeys c = true →
      unshadowed c p = true → unshadowed d p = true →
      unshadowed (mergeVal (some d) c) p = true := by
  induction p with
  | nil => intro c d _ _ _; cases d <;> cases c <;> rfl
  | cons k rest ih =>
      intro c d hnc hc hd
      cases c with
      | leaf t => simp [unshadowed] at hc
      | dict cs =>
          cases d with
          | leaf t => rw [mergeVal_leaf_base]; exact hc
          | dict ds =>
              rw [show mergeVal (some (ConfigVal.dict ds)) (ConfigVal.dict cs) =
                    ConfigVal.dict (mergeEntries ds cs) from rfl]
              cases hlc : lookupKey cs k with
              | none =>
                  rw [unshadowed, lookupKey_mergeEntries_none cs ds k hlc]
                  cases hld : lookupKey ds k with
                  | none => rfl
                  | some w =>
                      rw [unshadowed, hld] at hd
                      exact hd
              | some v =>
                  rw [unshadowed, hlc] at hc
                  have hnv : nodupKeys v = true := nodupKeys_of_lookupKey cs k v hnc hlc
                  rw [unshadowed, lookupKey_mergeEntries_some cs ds k v hnc hlc]
                  cases hld : lookupKey ds k with
                  | none => rw [mergeVal_none]; exact hc
                  | some w =>
                      rw [unshadowed, hld] at hd
                      exact ih v w hnv hc hd

/-- Helper notation-free constructors for concrete configuration values. -/
def entry1 (k : String) (v : ConfigVal) : Entries :=
  Entries.cons k v Entries.nil

/-- Empty mapping. -/
def emptyDict : ConfigVal :=
  ConfigVal.dict Entries.nil

/-- C1 (amended): the configuration built by Cihai.__init__ is the nested
merge of the defaults with the user config c, with the UNIHAN config
merged in underneath when unihan=True.  Every key path at which c holds a
scalar has c's value in the result.  Every key path absent from c has the
default value (from the defaults with the UNIHAN config underneath)
provided no proper prefix of the path is overridden in c by a scalar and,
when unihan=True, the path is likewise not shadowed by a scalar in the
defaults; a scalar override replaces the entire default subtree. -/
theorem cihai_init_config_merge (d U c : ConfigVal) (u : Bool) (p : List String)
    (hd : nodupKeys d = true) (hc : nodupKeys c = true) :
    (∀ s : String, lookupPath c p = some (ConfigVal.leaf s) →
       lookupPath (cihaiInitConfig d U c u) p = some (ConfigVal.leaf s)) ∧
    (lookupPath c p = none → unshadowed c p = true → (u = true → unshadowed d p = true) →
       lookupPath (cihaiInitConfig d U c u) p = lookupPath (mergedDefaults d U u) p) := by
  constructor
  · intro s hcp
    cases u with
    | false =>
        rw [show cihaiInitConfig d U c false = mergeVal (some d) c from rfl]
        exact lookupPath_mergeVal_leaf p c (some d) s hc hcp
    | true =>
        rw [show cihaiInitConfig d U c true =
              mergeVal (some U) (mergeVal (some d) c) from rfl]
        exact lookupPath_mergeVal_leaf p (mergeVal (some d) c) (some U) s
          (nodupKeys_mergeVal (some d) c hd hc)
          (lookupPath_mergeVal_leaf p c (some d) s hc hcp)
  · intro habs hshc hshd
    cases u with
    | false =>
        rw [show cihaiInitConfig d U c false = mergeVal (some d) c from rfl,
            show mergedDefaults d U false = d from rfl]
        exact lookupPath_mergeVal_absent p c d hc habs hshc
    | true =>
        have hshd' : unshadowed d p = true := hshd rfl
        have hX : lookupPath (mergeVal (some d) c) p = lookupPath d p :=
          lookupPath_mergeVal_absent p c d hc habs hshc
        have hnX : nodupKeys (mergeVal (some d) c) = true :=
          nodupKeys_mergeVal (some d) c hd hc
        rw [show cihaiInitConfig d U c true =
              mergeVal (some U) (mergeVal (some d) c) from rfl,
            show mergedDefaults d U true = mergeVal (some U) d from rfl]
        cases hdp : lookupPath d p with
        | some v =>
            exact lookupPath_mergeVal_congr p (mergeVal (some d) c) d (some U) v
              hnX hd (hX.trans hdp) hdp
        | none =>
            rw [lookupPath_mergeVal_absent p (mergeVal (some d) c) U hnX
                  (hX.trans hdp) (unshadowed_mergeVal p c d hc hshc hshd'),
                lookupPath_mergeVal_absent p d U hd hdp hshd']

/-- Witness for C1 (amended) at a concrete input: defaults holding a
nested mapping, a user override of one inner key, unihan=True. -/
theorem cihai_init_config_merge_witness :
    lookupPath
      (cihaiInitConfig
        (ConfigVal.dict (entry1 "database" (ConfigVal.dict (entry1 "url" (ConfigVal.leaf "sqlite://")))))
        (ConfigVal.dict (entry1 "datasets" (ConfigVal.dict (entry1 "unihan" (ConfigVal.leaf "cihai.unihan.Unihan")))))
        (ConfigVal.dict (entry1 "database" (ConfigVal.dict (entry1 "url" (ConfigVal.leaf "sqlite:///my.db")))))
        true)
      ["database", "url"] = some (ConfigVal.leaf "sqlite:///my.db") ∧
    lookupPath
      (cihaiInitConfig
        (ConfigVal.dict (entry1 "database" (ConfigVal.dict (entry1 "url" (ConfigVal.leaf "sqlite://")))))
        (ConfigVal.dict (entry1 "datasets" (ConfigVal.dict (entry1 "unihan" (ConfigVal.leaf "cihai.unihan.Unihan")))))
        (ConfigVal.dict (entry1 "database" (ConfigVal.dict (entry1 "url" (ConfigVal.leaf "sqlite:///my.db")))))
        true)
      ["datasets", "unihan"] =
      lookupPath
        (mergedDefaults
          (ConfigVal.dict (entry1 "database" (ConfigVal.dict (entry1 "url" (ConfigVal.leaf "sqlite://")))))
          (ConfigVal.dict (entry1 "datasets" (ConfigVal.dict (entry1 "unihan" (ConfigVal.leaf "cihai.unihan.Unihan")))))
          true)
        ["datasets", "unihan"] := by
  constructor
  · exact (cihai_init_config_merge
      (ConfigVal.dict (entry1 "database" (ConfigVal.dict (entry1 "url" (ConfigVal.leaf "sqlite://")))))
      (ConfigVal.dict (entry1 "datasets" (ConfigVal.dict (entry1 "unihan" (ConfigVal.leaf "cihai.unihan.Unihan")))))
      (ConfigVal.dict (entry1 "database" (ConfigVal.dict (entry1 "url" (ConfigVal.leaf "sqlite:///my.db")))))
      true ["database", "url"] rfl rfl).1 "sqlite:///my.db" rfl
  · exact (cihai_init_config_merge
      (ConfigVal.dict (entry1 "database" (ConfigVal.dict (entry1 "url" (ConfigVal.leaf "sqlite://")))))
      (ConfigVal.dict (entry1 "datasets" (ConfigVal.dict (entry1 "unihan" (ConfigVal.leaf "cihai.unihan.Unihan")))))
      (ConfigVal.dict (entry1 "database" (ConfigVal.dict (entry1 "url" (ConfigVal.leaf "sqlite:///my.db")))))
      true ["datasets", "unihan"] rfl rfl).2 rfl rfl (fun _ => rfl)

/-- C1 counterexample: the claim as stated fails on three concrete
inputs.  First, at a key path where the user config holds a mapping, the
resulting value is the recursive merge, not the user value.  Second, a
key path absent from the user config need not keep the default value
when a proper prefix of the path is overridden by a scalar.  Third,
under unihan=True a key path absent from the user config need not agree
with the defaults-over-UNIHAN layer when the defaults shadow the UNIHAN
config with a scalar. -/
theorem cihai_init_config_merge_counterexample :
    ((lookupPath (ConfigVal.dict (entry1 "a" (ConfigVal.dict (entry1 "c" (ConfigVal.leaf "2")))))
        ["a"]).isSome = true ∧
      lookupPath
        (cihaiInitConfig (ConfigVal.dict (entry1 "a" (ConfigVal.dict (entry1 "b" (ConfigVal.leaf "1")))))
          emptyDict (ConfigVal.dict (entry1 "a" (ConfigVal.dict (entry1 "c" (ConfigVal.leaf "2"))))) false)
        ["a"] ≠
      lookupPath (ConfigVal.dict (entry1 "a" (ConfigVal.dict (entry1 "c" (ConfigVal.leaf "2"))))) ["a"]) ∧
    (lookupPath (ConfigVal.dict (entry1 "a" (ConfigVal.leaf "x"))) ["a", "b"] = none ∧
      lookupPath
        (cihaiInitConfig (ConfigVal.dict (entry1 "a" (ConfigVal.dict (entry1 "b" (ConfigVal.leaf "1")))))
          emptyDict (ConfigVal.dict (entry1 "a" (ConfigVal.leaf "x"))) false)
        ["a", "b"] ≠
      lookupPath (mergedDefaults (ConfigVal.dict (entry1 "a" (ConfigVal.dict (entry1 "b" (ConfigVal.leaf "1")))))
          emptyDict false) ["a", "b"]) ∧
    (lookupPath (ConfigVal.dict (entry1 "a" emptyDict)) ["a", "b"] = none ∧
      unshadowed (ConfigVal.dict (entry1 "a" emptyDict)) ["a", "b"] = true ∧
      lookupPath
        (cihaiInitConfig (ConfigVal.dict (entry1 "a" (ConfigVal.leaf "x")))
          (ConfigVal.dict (entry1 "a" (ConfigVal.dict (entry1 "b" (ConfigVal.leaf "1")))))
          (ConfigVal.dict (entry1 "a" emptyDict)) true)
        ["a", "b"] ≠
      lookupPath (mergedDefaults (ConfigVal.dict (entry1 "a" (ConfigVal.leaf "x")))
          (ConfigVal.dict (entry1 "a" (ConfigVal.dict (entry1 "b" (ConfigVal.leaf "1"))))) true)
        ["a", "b"]) := by
  refine ⟨⟨rfl, fun h => ?_⟩, ⟨rfl, fun h => ?_⟩, ⟨rfl, rfl, fun h => ?_⟩⟩
  · have h2 : (some (ConfigVal.leaf "1") : Option ConfigVal) = none :=
      congrArg (fun ov : Option ConfigVal =>
        match ov with
        | some v => lookupPath v ["b"]
        | none => none) h
    exact Option.noConfusion h2
  · exact Option.noConfusion h
  · exact Option.noConfusion h

/-- Observable steps of a CLI invocation, in the order the source
performs them. -/
inductive Event : Type where
  | parseFlags : Event
  | setupLoggerEv : Event
  | mergeConfig : Event
  | expandConfigEv : Event
  | createDatabase : Event
  | loadDataset : String → String → Event
  | loadPlugin : String → String → String → Event
  | echoBootstrapping : Event
  | bootstrapUnihan : Event
  | reflectDb : Event
  | queryAndPrint : Event
deriving DecidableEq

/-- Trace of Cihai.bootstrap (core.py lines 100-106): one loadDataset
event per entry of the datasets mapping, then one loadPlugin event per
entry of each plugin group. -/
def bootstrapTrace (datasets : List (String × String))
    (plugins : List (String × List (String × String))) : List Event :=
  (datasets.map fun kv => Event.loadDataset kv.1 kv.2) ++
    (plugins.map fun dp => dp.2.map fun kv => Event.loadPlugin dp.1 kv.1 kv.2).flatten

/-- Trace of Cihai.__init__ (core.py lines 69-98): merge config, expand
templates, create the Database handle, then run bootstrap (the
dataset/plugin loading). -/
def cihaiInitTrace (datasets : List (String × String))
    (plugins : List (String × List (String × String))) : List Event :=
  [Event.mergeConfig, Event.expandConfigEv, Event.createDatabase] ++
    bootstrapTrace datasets plugins

/-- Trace of the cli group followed by the info command (cli.py lines
22-55).  The bootstrapped flag models c.is_bootstrapped, the check
whether the UNIHAN store is already present; bootstrapUnihan stands for
the download-extract-load step, reflectDb for the schema re-reflection
(both live outside src/ and are modelled from the spec as opaque
events). -/
def cliTrace (bootstrapped : Bool) (datasets : List (String × String))
    (plugins : List (String × List (String × String))) : List Event :=
  [Event.parseFlags, Event.setupLoggerEv] ++ cihaiInitTrace datasets plugins ++
    (if bootstrapped then []
     else [Event.echoBootstrapping, Event.bootstrapUnihan, Event.reflectDb]) ++
    [Event.queryAndPrint]

theorem bootstrapUnihan_not_mem_init (ds : List (String × String))
    (ps : List (String × List (String × String))) :
    Event.bootstrapUnihan ∉ cihaiInitTrace ds ps := by
  simp [cihaiInitTrace, bootstrapTrace, List.mem_flatten]
  intro l d kvs _ hl
  subst hl
  simp

theorem reflectDb_not_mem_init (ds : List (String × String))
    (ps : List (String × List (String × String))) :
    Event.reflectDb ∉ cihaiInitTrace ds ps := by
  simp [cihaiInitTrace, bootstrapTrace, List.mem_flatten]
  intro l d kvs _ hl
  subst hl
  simp

/-- C2: the CLI group performs the UNIHAN store bootstrap (download,
extract, bulk-load) and the subsequent schema re-reflection exactly when
the store is not already present; when the store is present neither
happens, and when it is absent the trace ends with the echo, the
bootstrap, the re-reflection and then the command, in that order. -/
theorem cli_bootstrap_iff_not_bootstrapped (b : Bool) (ds : List (String × String))
    (ps : List (String × List (String × String))) :
    (Event.bootstrapUnihan ∈ cliTrace b ds ps ↔ b = false) ∧
    (Event.reflectDb ∈ cliTrace b ds ps ↔ b = false) ∧
    cliTrace false ds ps =
      [Event.parseFlags, Event.setupLoggerEv] ++ cihaiInitTrace ds ps ++
        [Event.echoBootstrapping, Event.bootstrapUnihan, Event.reflectDb,
         Event.queryAndPrint] := by
  refine ⟨⟨?_, ?_⟩, ⟨?_, ?_⟩, ?_⟩
  · intro h
    cases b with
    | false => rfl
    | true =>
        exfalso
        have h' : Event.bootstrapUnihan ∈ cihaiInitTrace ds ps := by
          simpa [cliTrace] using h
        exact bootstrapUnihan_not_mem_init ds ps h'
  · intro h
    subst h
    simp [cliTrace]
  · intro h
    cases b with
    | false => rfl
    | true =>
        exfalso
        have h' : Event.reflectDb ∈ cihaiInitTrace ds ps := by
          simpa [cliTrace] using h
        exact reflectDb_not_mem_init ds ps h'
  · intro h
    subst h
    simp [cliTrace]
  · simp [cliTrace]

theorem getElem?_split {α : Type} (l₁ l₂ : List α) (x y : α) (i j : Nat)
    (hx : x ∉ l₂) (hy : y ∉ l₁)
    (hjx : (l₁ ++ l₂)[j]? = some x) (hiy : (l₁ ++ l₂)[i]? = some y) : j < i := by
  have hj : j < l₁.length := by
    by_contra h
    push_neg at h
    rw [List.getElem?_append_right h] at hjx
    exact hx (List.getElem?_mem hjx)
  have hi : l₁.length ≤ i := by
    by_contra h
    push_neg at h
    rw [List.getElem?_append_left h] at hiy
    exact hy (List.getElem?_mem hiy)
  omega

/-- C3 counterexample: with a configured dataset and a store that is not
yet bootstrapped, the CLI trace performs the dataset load strictly
before the UNIHAN store bootstrap (each occurring exactly once), so the
store bootstrap does not happen before dataset loading. -/
theorem cli_order_counterexample :
    (cliTrace false [("unihan", "cihai.unihan_dataset.Unihan")] []).indexOf
        (Event.loadDataset "unihan" "cihai.unihan_dataset.Unihan") <
      (cliTrace false [("unihan", "cihai.unihan_dataset.Unihan")] []).indexOf
        Event.bootstrapUnihan ∧
    (cliTrace false [("unihan", "cihai.unihan_dataset.Unihan")] []).count
        (Event.loadDataset "unihan" "cihai.unihan_dataset.Unihan") = 1 ∧
    (cliTrace false [("unihan", "cihai.unihan_dataset.Unihan")] []).count
        Event.bootstrapUnihan = 1 := by
  decide

/-- C3 (amended): a CLI invocation proceeds in this order: flags are
parsed, the logger is set up, the application object is constructed —
which merges the configuration, expands templates, creates the store
handle and then loads the configured datasets and plugins by name — then
the store's presence is checked and, if absent, the UNIHAN bootstrap
runs followed by schema re-reflection, and only then does the command
query and print; dataset/plugin loading therefore happens before the
store bootstrap, not after it. -/
theorem cli_order (ds : List (String × String))
    (ps : List (String × List (String × String))) :
    cliTrace false ds ps =
      [Event.parseFlags, Event.setupLoggerEv, Event.mergeConfig,
       Event.expandConfigEv, Event.createDatabase] ++
        (ds.map fun kv => Event.loadDataset kv.1 kv.2) ++
        (ps.map fun dp => dp.2.map fun kv => Event.loadPlugin dp.1 kv.1 kv.2).flatten ++
        [Event.echoBootstrapping, Event.bootstrapUnihan, Event.reflectDb,
         Event.queryAndPrint] ∧
    cliTrace true ds ps =
      [Event.parseFlags, Event.setupLoggerEv, Event.mergeConfig,
       Event.expandConfigEv, Event.createDatabase] ++
        (ds.map fun kv => Event.loadDataset kv.1 kv.2) ++
        (ps.map fun dp => dp.2.map fun kv => Event.loadPlugin dp.1 kv.1 kv.2).flatten ++
        [Event.queryAndPrint] ∧
    (∀ (i j : Nat) (ns cs : String),
      (cliTrace false ds ps)[i]? = some Event.bootstrapUnihan →
      (cliTrace false ds ps)[j]? = some (Event.loadDataset ns cs) → j < i) := by
  refine ⟨by simp [cliTrace, cihaiInitTrace, bootstrapTrace],
    by simp [cliTrace, cihaiInitTrace, bootstrapTrace], ?_⟩
  intro i j ns cs hb hl
  have he : cliTrace false ds ps =
      ([Event.parseFlags, Event.setupLoggerEv] ++ cihaiInitTrace ds ps) ++
        [Event.echoBootstrapping, Event.bootstrapUnihan, Event.reflectDb,
         Event.queryAndPrint] := by
    simp [cliTrace]
  rw [he] at hb hl
  refine getElem?_split _ _ (Event.loadDataset ns cs) Event.bootstrapUnihan i j
    (by simp) ?_ hl hb
  intro h
  rcases List.mem_append.mp h with h | h
  · simp at h
  · exact bootstrapUnihan_not_mem_init ds ps h

/-- Witness for C3 (amended) at a concrete trace: with one configured
dataset, the dataset load sits at position 5 and the store bootstrap at
position 7. -/
theorem cli_order_witness :
    (cliTrace false [("unihan", "cihai.unihan_dataset.Unihan")] [])[7]? =
        some Event.bootstrapUnihan ∧ (5 : Nat) < 7 := by
  refine ⟨by decide, ?_⟩
  exact (cli_order [("unihan", "cihai.unihan_dataset.Unihan")] []).2.2 7 5 "unihan"
    "cihai.unihan_dataset.Unihan" (by decide) (by decide)

/-- Modelled from the spec: a dynamically importable dataset class,
identified by a name and by whether it mixes in the SQL access
capability (cihai.extend.SQLAlchemyMixin is not under src/). -/
structure DatasetClass where
  clsName : String
  sqlMixin : Bool

/-- Modelled from the spec: the Database handle wrapping the connection
to the relational store (cihai.db.Database is not under src/); it is
created from the application configuration. -/
structure Database where
  config : ConfigVal

/-- A dataset instance: its class, the shared database handle granted to
SQL-capable datasets, and the plugins added to it so far. -/
structure DatasetInstance where
  cls : DatasetClass
  sql : Option Database
  plugins : List (String × String)

/-- The application object: the shared database handle and the dynamic
attributes holding attached dataset instances. -/
structure App where
  sql : Database
  attrs : List (String × DatasetInstance)

/-- First value bound to a name in an attribute list. -/
def lookupA {α : Type} : List (String × α) → String → Option α
  | [], _ => none
  | (k, v) :: rest, key => if k = key then some v else lookupA rest key

/-- Python setattr: rebind an existing name in place or append a new
binding. -/
def setA {α : Type} : List (String × α) → String → α → List (String × α)
  | [], key, v => [(key, v)]
  | (k, w) :: rest, key, v =>
      if k = key then (k, v) :: rest else (k, w) :: setA rest key v

theorem lookupA_setA_self {α : Type} :
    ∀ (l : List (String × α)) (k : String) (v : α), lookupA (setA l k v) k = some v
  | [], k, v => by simp [setA, lookupA]
  | (a, w) :: rest, k, v => by
      by_cases h : a = k
      · simp [setA, h, lookupA]
      · simp [setA, h, lookupA, lookupA_setA_self rest k v]

theorem lookupA_setA_other {α : Type} :
    ∀ (l : List (String × α)) (k' k : String) (v : α),
      k' ≠ k → lookupA (setA l k' v) k = lookupA l k
  | [], k', k, v, h => by simp [setA, lookupA, h]
  | (a, w) :: rest, k', k, v, h => by
      by_cases ha : a = k'
      · subst ha
        simp [setA, lookupA, h]
      · simp only [setA, if_neg ha]
        by_cases hak : a = k
        · simp [lookupA, hak]
        · simp [lookupA, hak, lookupA_setA_other rest k' k v h]

theorem lookupA_setA_isSome {α : Type} (l : List (String × α)) (k ns : String) (v : α)
    (h : (lookupA l ns).isSome = true) : (lookupA (setA l k v) ns).isSome = true := by
  by_cases hk : k = ns
  · subst hk
    rw [lookupA_setA_self]
    rfl
  · rw [lookupA_setA_other l k ns v hk]
    exact h

/-- Modelled from the spec: cihai.utils.import_string (not under src/),
dynamic import of a class by dotted path string; none models an import
failure. -/
def ImportEnv : Type := String → Option DatasetClass

/-- The _cls argument of add_dataset: a dotted path string or a class
object passed directly. -/
inductive ClsArg where
  | str : String → ClsArg
  | cls : DatasetClass → ClsArg

/-- Instantiation with no arguments: a fresh instance with no SQL handle
and no plugins. -/
def instantiate (c : DatasetClass) : DatasetInstance :=
  { cls := c, sql := none, plugins := [] }

/-- The instance as it sits on the application after add_dataset: the
shared handle is granted exactly to SQL-capable classes. -/
def attachedInstance (app : App) (c : DatasetClass) : DatasetInstance :=
  if c.sqlMixin then { instantiate c with sql := some app.sql } else instantiate c

/-- Cihai.add_dataset (core.py lines 108-116): resolve the class —
importing it when given as a string — instantiate it, attach the
instance under the namespace, and set its sql attribute to the shared
handle when it is an instance of the SQL mixin. -/
def add_dataset (env : ImportEnv) (app : App) (arg : ClsArg) (ns : String) : Option App :=
  let cls? := match arg with
    | ClsArg.str s => env s
    | ClsArg.cls c => some c
  match cls? with
  | none => none
  | some c => some { app with attrs := setA app.attrs ns (attachedInstance app c) }

/-- C4: add_dataset with a dotted path string imports the class named by
the string, instantiates it with no arguments and attaches the instance
under the namespace, so that the attribute lookup afterwards yields that
instance; a class object passed directly is instantiated and attached
identically, with no dependence on the import environment. -/
theorem add_dataset_attaches (env : ImportEnv) (app : App) (s ns : String)
    (c : DatasetClass) (h : env s = some c) :
    (∃ app', add_dataset env app (ClsArg.str s) ns = some app' ∧
       lookupA app'.attrs ns = some (attachedInstance app c) ∧
       (attachedInstance app c).cls = c) ∧
    (∀ (env' env'' : ImportEnv) (c' : DatasetClass),
       add_dataset env' app (ClsArg.cls c') ns = add_dataset env'' app (ClsArg.cls c') ns ∧
       ∃ app'', add_dataset env' app (ClsArg.cls c') ns = some app'' ∧
         lookupA app''.attrs ns = some (attachedInstance app c') ∧
         (attachedInstance app c').cls = c') := by
  constructor
  · refine ⟨{ app with attrs := setA app.attrs ns (attachedInstance app c) },
      by simp [add_dataset, h], ?_, ?_⟩
    · exact lookupA_setA_self app.attrs ns (attachedInstance app c)
    · unfold attachedInstance instantiate
      by_cases hm : c.sqlMixin <;> simp [hm]
  · intro env' env'' c'
    refine ⟨rfl, _, rfl, ?_, ?_⟩
    · exact lookupA_setA_self app.attrs ns (attachedInstance app c')
    · unfold attachedInstance instantiate
      by_cases hm : c'.sqlMixin <;> simp [hm]

/-- Witness for C4 at a concrete import environment binding one dotted
path to a SQL-capable class. -/
theorem add_dataset_attaches_witness :
    (fun s => if s = "cihai.unihan_dataset.Unihan"
         then some { clsName := "Unihan", sqlMixin := true }
         else (none : Option DatasetClass)) "cihai.unihan_dataset.Unihan" =
      some { clsName := "Unihan", sqlMixin := true } ∧
    ∃ app', add_dataset
        (fun s => if s = "cihai.unihan_dataset.Unihan"
           then some { clsName := "Unihan", sqlMixin := true }
           else none)
        { sql := { config := emptyDict }, attrs := [] }
        (ClsArg.str "cihai.unihan_dataset.Unihan") "unihan" = some app' ∧
      lookupA app'.attrs "unihan" =
        some (attachedInstance { sql := { config := emptyDict }, attrs := [] }
          { clsName := "Unihan", sqlMixin := true }) ∧
      (attachedInstance { sql := { config := emptyDict }, attrs := [] }
        { clsName := "Unihan", sqlMixin := true }).cls =
        { clsName := "Unihan", sqlMixin := true } := by
  refine ⟨rfl, ?_⟩
  exact (add_dataset_attaches
    (fun s => if s = "cihai.unihan_dataset.Unihan"
       then some { clsName := "Unihan", sqlMixin := true }
       else none)
    { sql := { config := emptyDict }, attrs := [] }
    "cihai.unihan_dataset.Unihan" "unihan"
    { clsName := "Unihan", sqlMixin := true } rfl).1

/-- C5: after add_dataset, the attached instance carries the shared
database handle exactly when its class mixes in the SQL capability; a
dataset without the mixin is attached with no handle. -/
theorem add_dataset_sql_iff (env : ImportEnv) (app : App) (arg : ClsArg) (ns : String)
    (app' : App) (inst : DatasetInstance)
    (h : add_dataset env app arg ns = some app')
    (hi : lookupA app'.attrs ns = some inst) :
    inst.sql = some app.sql ↔ inst.cls.sqlMixin = true := by
  have hc : ∃ c, app' = { app with attrs := setA app.attrs ns (attachedInstance app c) } := by
    cases arg with
    | str s =>
        cases hs : env s with
        | none => simp [add_dataset, hs] at h
        | some c =>
            refine ⟨c, ?_⟩
            simp [add_dataset, hs] at h
            exact h.symm
    | cls c =>
        refine ⟨c, ?_⟩
        simp [add_dataset] at h
        exact h.symm
  obtain ⟨c, hc⟩ := hc
  subst hc
  rw [show ({ app with attrs := setA app.attrs ns (attachedInstance app c) } : App).attrs =
        setA app.attrs ns (attachedInstance app c) from rfl,
      lookupA_setA_self] at hi
  have hinst : inst = attachedInstance app c := by injection hi.symm
  subst hinst
  unfold attachedInstance instantiate
  cases hm : c.sqlMixin with
  | true => simp [hm]
  | false => simp [hm]

/-- Witness for C5 at a concrete non-SQL dataset class: the attached
instance is granted no handle. -/
theorem add_dataset_sql_iff_witness :
    ((attachedInstance { sql := { config := emptyDict }, attrs := [] }
        { clsName := "Plain", sqlMixin := false }).sql =
      some ({ sql := { config := emptyDict }, attrs := [] } : App).sql ↔
     (attachedInstance { sql := { config := emptyDict }, attrs := [] }
        { clsName := "Plain", sqlMixin := false }).cls.sqlMixin = true) := by
  exact add_dataset_sql_iff (fun _ => none)
    { sql := { config := emptyDict }, attrs := [] }
    (ClsArg.cls { clsName := "Plain", sqlMixin := false }) "plain"
    { sql := { config := emptyDict },
      attrs := [("plain", attachedInstance { sql := { config := emptyDict }, attrs := [] }
        { clsName := "Plain", sqlMixin := false })] }
    (attachedInstance { sql := { config := emptyDict }, attrs := [] }
      { clsName := "Plain", sqlMixin := false })
    rfl rfl

/-- The first loop of Cihai.bootstrap (core.py lines 101-102): attach
one dataset per entry of the datasets mapping. -/
def addDatasets (env : ImportEnv) : App → List (String × String) → Option App
  | app, [] => some app
  | app, (ns, cs) :: rest =>
      match add_dataset env app (ClsArg.str cs) ns with
      | some app' => addDatasets env app' rest
      | none => none

/-- Modelled from the spec: add_plugin on a dataset instance (the
dataset classes live outside src/) attaches a plugin class under a
namespace; it is reached through getattr(self, dataset), which fails
when no such attribute exists. -/
def addPluginTo (app : App) (ds ns cs : String) : Option App :=
  match lookupA app.attrs ds with
  | none => none
  | some inst =>
      some { app with
        attrs := setA app.attrs ds { inst with plugins := inst.plugins ++ [(ns, cs)] } }

/-- Inner loop of the plugin phase: add every plugin of one group to the
dataset attribute named by the group key. -/
def addPluginsFor : App → String → List (String × String) → Option App
  | app, _, [] => some app
  | app, ds, (ns, cs) :: rest =>
      match addPluginTo app ds ns cs with
      | some app' => addPluginsFor app' ds rest
      | none => none

/-- The second loop of Cihai.bootstrap (core.py lines 104-106). -/
def addPlugins : App → List (String × List (String × String)) → Option App
  | app, [] => some app
  | app, (ds, group) :: rest =>
      match addPluginsFor app ds group with
      | some app' => addPlugins app' rest
      | none => none

/-- Cihai.bootstrap (core.py lines 100-106): all datasets, then all
plugins. -/
def bootstrapApp (env : ImportEnv) (app : App) (ds : List (String × String))
    (ps : List (String × List (String × String))) : Option App :=
  match addDatasets env app ds with
  | some app1 => addPlugins app1 ps
  | none => none

theorem add_dataset_str_attrs (env : ImportEnv) (app : App) (cs ns : String)
    (app' : App) (h : add_dataset env app (ClsArg.str cs) ns = some app') :
    ∃ c, app' = { app with attrs := setA app.attrs ns (attachedInstance app c) } := by
  cases hs : env cs with
  | none => simp [add_dataset, hs] at h
  | some c =>
      refine ⟨c, ?_⟩
      simp [add_dataset, hs] at h
      exact h.symm

theorem addDatasets_attr (env : ImportEnv) :
    ∀ (ds : List (String × String)) (app app1 : App),
      addDatasets env app ds = some app1 → ∀ ns : String,
      (ns ∈ ds.map Prod.fst ∨ (lookupA app.attrs ns).isSome = true) →
      (lookupA app1.attrs ns).isSome = true
  | [], app, app1, h, ns, hns => by
      rcases hns with hns | hns
      · simp at hns
      · have : app = app1 := by injection h
        exact this ▸ hns
  | (nsd, cs) :: rest, app, app1, h, ns, hns => by
      rw [addDatasets] at h
      cases ha : add_dataset env app (ClsArg.str cs) nsd with
      | none => rw [ha] at h; exact Option.noConfusion h
      | some app' =>
          rw [ha] at h
          obtain ⟨c, hc⟩ := add_dataset_str_attrs env app cs nsd app' ha
          refine addDatasets_attr env rest app' app1 h ns ?_
          rcases hns with hns | hns
          · simp only [List.map_cons, List.mem_cons] at hns
            rcases hns with hns | hns
            · right
              subst hns
              rw [hc]
              have : (lookupA (setA app.attrs ns (attachedInstance app c)) ns).isSome
                  = true := by
                rw [lookupA_setA_self]
                rfl
              exact this
            · left
              exact hns
          · right
            rw [hc]
            exact lookupA_setA_isSome app.attrs nsd ns _ hns

theorem addPluginTo_attr (app : App) (ds ns cs : String)
    (h : (lookupA app.attrs ds).isSome = true) :
    ∃ app', addPluginTo app ds ns cs = some app' ∧
      ∀ m : String, (lookupA app.attrs m).isSome = true →
        (lookupA app'.attrs m).isSome = true := by
  cases hl : lookupA app.attrs ds with
  | none => rw [hl] at h; exact Bool.noConfusion h
  | some inst =>
      refine ⟨_, by rw [addPluginTo, hl], ?_⟩
      intro m hm
      exact lookupA_setA_isSome app.attrs ds m _ hm

theorem addPluginsFor_attr :
    ∀ (group : List (String × String)) (app : App) (ds : String),
      (lookupA app.attrs ds).isSome = true →
      ∃ app', addPluginsFor app ds group = some app' ∧
        ∀ m : String, (lookupA app.attrs m).isSome = true →
          (lookupA app'.attrs m).isSome = true
  | [], app, ds, _ => ⟨app, rfl, fun _ hm => hm⟩
  | (ns, cs) :: rest, app, ds, h => by
      obtain ⟨app', h1, hpres⟩ := addPluginTo_attr app ds ns cs h
      obtain ⟨app2, h2, hpres2⟩ := addPluginsFor_attr rest app' ds (hpres ds h)
      refine ⟨app2, ?_, fun m hm => hpres2 m (hpres m hm)⟩
      rw [addPluginsFor, h1]
      exact h2

theorem addPlugins_attr :
    ∀ (ps : List (String × List (String × String))) (app : App),
      (∀ dp, dp ∈ ps → (lookupA app.attrs dp.1).isSome = true) →
      ∃ app2, addPlugins app ps = some app2
  | [], app, _ => ⟨app, rfl⟩
  | (ds, group) :: rest, app, h => by
      obtain ⟨app', h1, hpres⟩ := addPluginsFor_attr group app ds
        (h (ds, group) (List.mem_cons_self _ _))
      obtain ⟨app2, h2⟩ := addPlugins_attr rest app'
        (fun dp hdp => hpres dp.1 (h dp (List.mem_cons_of_mem _ hdp)))
      refine ⟨app2, ?_⟩
      rw [addPlugins, h1]
      exact h2

/-- C7: Cihai.bootstrap attaches every configured dataset before any
plugin is added — in the event trace all loadDataset events precede all
loadPlugin events — and each plugin is added through an attribute lookup
of the dataset named by its group key; when every plugins key also
occurs among the datasets keys (and the dataset phase succeeded), every
such lookup succeeds and the plugin phase completes. -/
theorem bootstrap_datasets_before_plugins (env : ImportEnv) (app app1 : App)
    (ds : List (String × String)) (ps : List (String × List (String × String)))
    (h1 : addDatasets env app ds = some app1)
    (hkeys : ∀ dp, dp ∈ ps → dp.1 ∈ ds.map Prod.fst) :
    (∃ app2, bootstrapApp env app ds ps = some app2) ∧
    (∀ (i j : Nat) (a b c d e : String),
      (bootstrapTrace ds ps)[i]? = some (Event.loadDataset a b) →
      (bootstrapTrace ds ps)[j]? = some (Event.loadPlugin c d e) → i < j) := by
  constructor
  · obtain ⟨app2, h2⟩ := addPlugins_attr ps app1
      (fun dp hdp => addDatasets_attr env ds app app1 h1 dp.1 (Or.inl (hkeys dp hdp)))
    refine ⟨app2, ?_⟩
    rw [bootstrapApp, h1]
    exact h2
  · intro i j a b c d e hi hj
    refine getElem?_split _ _ (Event.loadDataset a b) (Event.loadPlugin c d e) j i
      ?_ ?_ hi hj
    · intro hm
      obtain ⟨l, hl, hm⟩ := List.mem_flatten.mp hm
      obtain ⟨dp, _, hdp⟩ := List.mem_map.mp hl
      subst hdp
      obtain ⟨kv, _, hkv⟩ := List.mem_map.mp hm
      exact Event.noConfusion hkv
    · intro hm
      obtain ⟨kv, _, hkv⟩ := List.mem_map.mp hm
      exact Event.noConfusion hkv

/-- Witness for C7 at a concrete configuration: one dataset and one
plugin group keyed by that dataset. -/
theorem bootstrap_datasets_before_plugins_witness :
    ∃ app2, bootstrapApp
      (fun _ => some { clsName := "Unihan", sqlMixin := true })
      { sql := { config := emptyDict }, attrs := [] }
      [("unihan", "cihai.unihan_dataset.Unihan")]
      [("unihan", [("variants", "cihai.unihan_dataset.UnihanVariants")])] =
      some app2 := by
  exact (bootstrap_datasets_before_plugins
    (fun _ => some { clsName := "Unihan", sqlMixin := true })
    { sql := { config := emptyDict }, attrs := [] }
    { sql := { config := emptyDict },
      attrs := [("unihan", attachedInstance { sql := { config := emptyDict }, attrs := [] }
        { clsName := "Unihan", sqlMixin := true })] }
    [("unihan", "cihai.unihan_dataset.Unihan")]
    [("unihan", [("variants", "cihai.unihan_dataset.UnihanVariants")])]
    rfl (by simp)).1

/-- The reflected Unihan table: column names in the table's column
order, and rows as value lists aligned with the columns; none models SQL
NULL. -/
structure UnihanTable where
  columns : List String
  rows : List (List (Option String))

/-- Value of a row at a named column. -/
def colValue (cols : List String) (row : List (Option String)) (c : String) :
    Option (Option String) :=
  lookupA (cols.zip row) c

/-- Python truthiness of a column value: NULL and the empty string are
falsy, everything else truthy. -/
def truthy : Option String → Bool
  | none => false
  | some s => !(s == "")

/-- The filter_by(char=char) predicate: the row's char column holds the
requested character. -/
def rowMatches (cols : List String) (ch : String) (row : List (Option String)) : Bool :=
  colValue cols row "char" == some (some ch)

/-- query(Unihan).filter_by(char=char).first(): the first matching row,
if any. -/
def firstCharRow (t : UnihanTable) (ch : String) : Option (List (Option String)) :=
  t.rows.find? (rowMatches t.columns ch)

/-- One column of info output: the name paired with the value when the
value is truthy, nothing otherwise. -/
def infoEntry (kv : String × Option String) : Option (String × String) :=
  match kv.2 with
  | some s => if s = "" then none else some (kv.1, s)
  | none => none

/-- The lines printed by the info command: for each column in the
table's column order, the column name paired with its value, kept only
when the value is truthy. -/
def infoLines (cols : List String) (row : List (Option String)) :
    List (String × String) :=
  (cols.zip row).filterMap infoEntry

/-- The info command (cli.py lines 42-55): fetch the first row matching
the character and print its truthy columns; when no row matches, first()
returns None and the attribute access on it raises AttributeError. -/
def commandInfo (t : UnihanTable) (ch : String) :
    Except String (List (String × String)) :=
  match firstCharRow t ch with
  | none => Except.error "AttributeError: NoneType has no attribute __table__"
  | some row => Except.ok (infoLines t.columns row)

theorem find?_decomp {α : Type} (p : α → Bool) :
    ∀ (l : List α) (a : α), l.find? p = some a →
      p a = true ∧ ∃ pre suf, l = pre ++ a :: suf ∧ ∀ x ∈ pre, p x = false
  | [], a, h => by simp [List.find?] at h
  | x :: xs, a, h => by
      by_cases hx : p x = true
      · rw [List.find?_cons_of_pos _ hx] at h
        have hxa : x = a := by injection h
        subst hxa
        exact ⟨hx, [], xs, rfl, by simp⟩
      · rw [List.find?_cons_of_neg _ hx] at h
        obtain ⟨hpa, pre, suf, hsplit, hpre⟩ := find?_decomp p xs a h
        refine ⟨hpa, x :: pre, suf, by rw [hsplit]; rfl, ?_⟩
        intro y hy
        rcases List.mem_cons.mp hy with hy | hy
        · subst hy
          simpa using hx
        · exact hpre y hy

theorem infoLines_eq_filter :
    ∀ l : List (String × Option String),
      l.filterMap infoEntry =
        (l.filter fun kv => truthy kv.2).map fun kv => (kv.1, kv.2.getD "")
  | [] => rfl
  | (c, v) :: rest => by
      cases v with
      | none => exact infoLines_eq_filter rest
      | some s =>
          by_cases hs : s = ""
          · subst hs
            exact infoLines_eq_filter rest
          · have hf : ((c, some s) :: rest).filterMap infoEntry =
                (c, s) :: rest.filterMap infoEntry := by
              rw [List.filterMap_cons]
              simp [infoEntry, hs]
            have hp : ((c, some s) :: rest).filter (fun kv => truthy kv.2) =
                (c, some s) :: rest.filter (fun kv => truthy kv.2) := by
              rw [List.filter_cons]
              simp [truthy, hs]
            rw [hf, hp, List.map_cons, infoLines_eq_filter rest]
            rfl

/-- C6: info fetches the first row of the Unihan table whose char column
equals the requested character — the returned row matches and every row
before it does not — and prints, for each column in the table's column
order, the column name and its value, keeping exactly the columns whose
value is truthy (non-NULL and non-empty). -/
theorem command_info_prints (t : UnihanTable) (ch : String)
    (row : List (Option String)) (h : firstCharRow t ch = some row) :
    colValue t.columns row "char" = some (some ch) ∧
    (∃ pre suf, t.rows = pre ++ row :: suf ∧
       ∀ r ∈ pre, rowMatches t.columns ch r = false) ∧
    commandInfo t ch = Except.ok (infoLines t.columns row) ∧
    infoLines t.columns row =
      ((t.columns.zip row).filter fun kv => truthy kv.2).map
        fun kv => (kv.1, kv.2.getD "") := by
  obtain ⟨hmatch, pre, suf, hsplit, hpre⟩ :=
    find?_decomp (rowMatches t.columns ch) t.rows row h
  refine ⟨?_, ⟨pre, suf, hsplit, hpre⟩, ?_, infoLines_eq_filter _⟩
  · exact eq_of_beq hmatch
  · rw [commandInfo, h]

/-- Witness for C6 on a one-row table. -/
theorem command_info_prints_witness :
    commandInfo
      { columns := ["char", "kDefinition", "kCantonese"],
        rows := [[some "好", some "good", none]] } "好" =
      Except.ok (infoLines ["char", "kDefinition", "kCantonese"]
        [some "好", some "good", none]) ∧
    infoLines ["char", "kDefinition", "kCantonese"] [some "好", some "good", none] =
      [("char", "好"), ("kDefinition", "good")] := by
  constructor
  · exact (command_info_prints
      { columns := ["char", "kDefinition", "kCantonese"],
        rows := [[some "好", some "good", none]] } "好"
      [some "好", some "good", none] (by decide)).2.2.1
  · decide

/-- C8: when no row of the Unihan table bears the requested character,
first() yields None and the info command fails with an AttributeError on
the None result rather than printing nothing. -/
theorem command_info_missing_char (t : UnihanTable) (ch : String)
    (h : ∀ r ∈ t.rows, rowMatches t.columns ch r = false) :
    firstCharRow t ch = none ∧
    commandInfo t ch =
      Except.error "AttributeError: NoneType has no attribute __table__" := by
  have hf : firstCharRow t ch = none := by
    rw [firstCharRow, List.find?_eq_none]
    intro r hr
    simp [h r hr]
  exact ⟨hf, by rw [commandInfo, hf]⟩

/-- Witness for C8 on a table that lacks the requested character. -/
theorem command_info_missing_char_witness :
    commandInfo
      { columns := ["char", "kDefinition"], rows := [[some "好", some "good"]] } "壞" =
      Except.error "AttributeError: NoneType has no attribute __table__" := by
  exact (command_info_missing_char
    { columns := ["char", "kDefinition"], rows := [[some "好", some "good"]] } "壞"
    (by decide)).2

/-- The extension check of from_file (core.py line 144): accepted paths
end in json, yml, yaml or ini (no leading dot is required); str.endswith
is modelled as a character-level suffix test. -/
def hasConfigExt (p : String) : Bool :=
  ["json", "yml", "yaml", "ini"].any fun e => e.data.isSuffixOf p.data

/-- Cihai.from_file (core.py lines 118-155): with a truthy path, check
existence first, then the extension, then read the file and construct a
Cihai from the read config (merged over the initial empty dict); with
None or an empty path construct a Cihai from the empty override config.
The constructed application is represented by its merged configuration,
with unihan=True as in the constructor's default.  pathExists models
os.path.exists; reader models the kaptan config import; the error
payloads mirror exc.CihaiException, modelled from the spec since exc.py
is not under src/. -/
def from_file (pathExists : String → Bool) (reader : String → ConfigVal)
    (defaults unihanCfg : ConfigVal) : Option String → Except String ConfigVal
  | none => Except.ok (cihaiInitConfig defaults unihanCfg emptyDict true)
  | some path =>
      if path = "" then Except.ok (cihaiInitConfig defaults unihanCfg emptyDict true)
      else if !(pathExists path) then Except.error (path ++ " does not exist.")
      else if !(hasConfigExt path) then
        Except.error (path ++ " does not have a yaml,yml,json,ini extend.")
      else Except.ok (cihaiInitConfig defaults unihanCfg
        (mergeVal (some emptyDict) (reader path)) true)

/-- C9: for a non-empty path, from_file fails when the path does not
exist — the existence check runs first, so this error wins even when the
extension is also wrong — and fails on an existing path lacking a
json/yml/yaml/ini suffix; in both error cases no application is
constructed.  With None or an empty path a Cihai is built from the empty
override config. -/
theorem from_file_errors (pathExists : String → Bool) (reader : String → ConfigVal)
    (d U : ConfigVal) (path : String) (hne : path ≠ "") :
    (pathExists path = false →
       from_file pathExists reader d U (some path) =
         Except.error (path ++ " does not exist.")) ∧
    (pathExists path = false → ∀ cfg : ConfigVal,
       from_file pathExists reader d U (some path) ≠ Except.ok cfg) ∧
    (pathExists path = true → hasConfigExt path = false →
       from_file pathExists reader d U (some path) =
         Except.error (path ++ " does not have a yaml,yml,json,ini extend.")) ∧
    (pathExists path = true → hasConfigExt path = false → ∀ cfg : ConfigVal,
       from_file pathExists reader d U (some path) ≠ Except.ok cfg) ∧
    from_file pathExists reader d U none =
      Except.ok (cihaiInitConfig d U emptyDict true) ∧
    from_file pathExists reader d U (some "") =
      Except.ok (cihaiInitConfig d U emptyDict true) := by
  refine ⟨?_, ?_, ?_, ?_, rfl, by simp [from_file]⟩
  · intro hex
    simp [from_file, hne, hex]
  · intro hex cfg hok
    rw [show from_file pathExists reader d U (some path) =
          Except.error (path ++ " does not exist.") by simp [from_file, hne, hex]] at hok
    exact Except.noConfusion hok
  · intro hex hext
    simp [from_file, hne, hex, hext]
  · intro hex hext cfg hok
    rw [show from_file pathExists reader d U (some path) =
          Except.error (path ++ " does not have a yaml,yml,json,ini extend.") by
        simp [from_file, hne, hex, hext]] at hok
    exact Except.noConfusion hok

/-- Witness for C9 with a one-file filesystem: a missing path errors, an
existing path with a bad extension errors. -/
theorem from_file_errors_witness :
    from_file (fun p => p = "conf.txt") (fun _ => emptyDict) emptyDict emptyDict
        (some "missing.json") = Except.error "missing.json does not exist." ∧
    from_file (fun p => p = "conf.txt") (fun _ => emptyDict) emptyDict emptyDict
        (some "conf.txt") =
      Except.error "conf.txt does not have a yaml,yml,json,ini extend." := by
  constructor
  · exact (from_file_errors (fun p => p = "conf.txt") (fun _ => emptyDict)
      emptyDict emptyDict "missing.json" (by decide)).1 (by decide)
  · exact (from_file_errors (fun p => p = "conf.txt") (fun _ => emptyDict)
      emptyDict emptyDict "conf.txt" (by decide)).2.2.1 (by decide) (by decide)

/-- A logger: the installed handlers (stream handlers numbered by
creation) and the level. -/
structure Logger where
  handlers : List Nat
  level : String

/-- setup_logger (cli.py lines 58-71): when the logger has no handlers,
set the requested level and install one stream handler; otherwise leave
the logger untouched. -/
def setup_logger (lg : Logger) (level : String) : Logger :=
  match lg.handlers with
  | [] => { handlers := [0], level := level }
  | _ => lg

/-- C10: setup_logger is idempotent with respect to handler
installation: a logger that already has a handler is returned unchanged
(no handler added, level untouched), a second call never changes the
result of a first call, and a call leaves at most max(1, n) handlers on
a logger that had n. -/
theorem setup_logger_idempotent (lg : Logger) (l1 l2 : String) :
    (lg.handlers ≠ [] → setup_logger lg l1 = lg) ∧
    setup_logger (setup_logger lg l1) l2 = setup_logger lg l1 ∧
    (setup_logger lg l1).handlers.length ≤ max lg.handlers.length 1 := by
  cases hh : lg.handlers with
  | nil =>
      have he : setup_logger lg l1 = { handlers := [0], level := l1 } := by
        rw [setup_logger, hh]
      refine ⟨fun hne => absurd rfl hne, ?_, ?_⟩
      · rw [he]
        rfl
      · rw [he]
        simp
  | cons a rest =>
      have he1 : setup_logger lg l1 = lg := by rw [setup_logger, hh]
      have he2 : setup_logger lg l2 = lg := by rw [setup_logger, hh]
      refine ⟨fun _ => he1, ?_, ?_⟩
      · rw [he1, he2]
      · rw [he1, hh]
        exact le_max_left _ _

/-- Witness for C10 on a logger that already carries a handler. -/
theorem setup_logger_idempotent_witness :
    setup_logger { handlers := [7], level := "INFO" } "DEBUG" =
      { handlers := [7], level := "INFO" } := by
  exact (setup_logger_idempotent { handlers := [7], level := "INFO" } "DEBUG" "ERROR").1
    (by simp)

end Cihai
